import Mathlib

/-!
Verification of the DealCrafter workshop repository.

Shallow embedding of:
  * the SSE streaming layer of the Part-5 backend
    (`backend/app/api/chat.py`, `backend/app/services/mock_service.py`,
    `backend/app/services/llm_service.py`,
    `backend/app/services/deepagent_service.py`);
  * the file-backed session storage and its API endpoints
    (`backend/app/services/session_storage.py`,
    `backend/app/api/chat_history.py`);
  * the Part-4 supervisor-pattern LangGraph workflow
    (`04-deal-memo-generator-done/memo_generator.py`).

External library calls (LLM invocations, MCP tool calls, file I/O) are
modelled by explicit oracle parameters; everything that the repository
itself computes is translated directly.
-/

namespace DealCrafter

/-! ## Table payloads (`app/models/schemas.py` as used by `mock_service.py`)

A table cell value in the mock tables is either a string or an int. -/

inductive Cell where
  | cs (s : String)
  | ci (n : Int)
deriving DecidableEq, Repr

/-- One column description of a streamed table (`TableColumn`). -/
structure TableColumn where
  header : String
  accessor : String
deriving DecidableEq, Repr

/-- A table row is the dict mapping accessor names to cell values. -/
abbrev Row := List (String × Cell)

/-- Tabular payload of a `table` event (`TableData`). -/
structure TableData where
  columns : List TableColumn
  rows : List Row
deriving DecidableEq, Repr

/-! ## `json.dumps` on table payloads

`chat.py` serializes dict event data with `json.dumps` (default options:
`ensure_ascii=True`, separators `", "` and `": "`).  The only dict payloads
produced by the backing responders are `TableData.model_dump()` dicts, so the
serializer is embedded on that shape. -/

/-- Lower-case hex digit. -/
def hexDigit (n : Nat) : Char :=
  "0123456789abcdef".data.getD n '0'

/-- Four-digit hex rendering used in `\uXXXX` escapes. -/
def hex4 (n : Nat) : List Char :=
  [hexDigit (n / 4096 % 16), hexDigit (n / 256 % 16), hexDigit (n / 16 % 16), hexDigit (n % 16)]

/-- Escape one character the way `json.dumps` (with `ensure_ascii=True`) does. -/
def jsonEscapeChar (c : Char) : List Char :=
  if c = '"' then ['\\', '"']
  else if c = '\\' then ['\\', '\\']
  else if c = '\n' then ['\\', 'n']
  else if c = '\r' then ['\\', 'r']
  else if c = '\t' then ['\\', 't']
  else if c = '\x08' then ['\\', 'b']
  else if c = '\x0c' then ['\\', 'f']
  else if c.toNat < 32 ∨ c.toNat > 126 then
    if c.toNat < 65536 then '\\' :: 'u' :: hex4 c.toNat
    else
      let m := c.toNat - 65536
      ('\\' :: 'u' :: hex4 (55296 + m / 1024)) ++ ('\\' :: 'u' :: hex4 (56320 + m % 1024))
  else [c]

/-- A JSON string literal for `s`. -/
def jsonStr (s : String) : String :=
  "\"" ++ String.mk (s.data.flatMap jsonEscapeChar) ++ "\""

/-- Serialize one cell value. -/
def jsonCell : Cell → String
  | .cs s => jsonStr s
  | .ci n => toString n

/-- Serialize one row dict. -/
def jsonRow (r : Row) : String :=
  "\x7b" ++ String.intercalate ", " (r.map fun p => jsonStr p.1 ++ ": " ++ jsonCell p.2) ++ "\x7d"

/-- Serialize one column dict. -/
def jsonColumn (c : TableColumn) : String :=
  "\x7b" ++ jsonStr "header" ++ ": " ++ jsonStr c.header ++ ", "
    ++ jsonStr "accessor" ++ ": " ++ jsonStr c.accessor ++ "\x7d"

/-- Embedding of `json.dumps(table_data.model_dump())`. -/
def jsonDumpsTable (t : TableData) : String :=
  "\x7b" ++ jsonStr "columns" ++ ": [" ++ String.intercalate ", " (t.columns.map jsonColumn)
    ++ "], " ++ jsonStr "rows" ++ ": [" ++ String.intercalate ", " (t.rows.map jsonRow)
    ++ "]\x7d"

/-! ## Events

A backing responder yields dicts `{"event": ..., "data": ...}` where the data
is a plain string (`text` / `error` / `end` events) or a table dict. -/

inductive EventData where
  | str (s : String)
  | table (t : TableData)
deriving DecidableEq, Repr

/-- One event yielded by a backing responder. -/
structure Event where
  ev : String
  data : EventData
deriving DecidableEq, Repr

/-- The serialization step of `chat.py` (lines 42-46): dict data goes through
`json.dumps`, strings are kept as-is.  (The `str(event_data)` fallback branch
is unreachable for the event data produced by the responders.) -/
def serializeData : EventData → String
  | .str s => s
  | .table t => jsonDumpsTable t

/-! ## The SSE event generator (`chat.py`, `event_generator`) -/

/-- Python `str.split('\n')` on a character list: splits at every newline,
keeping empty pieces, and yields one piece even for the empty input. -/
def splitNL : List Char → List (List Char)
  | [] => [[]]
  | c :: cs =>
    if c = '\n' then [] :: splitNL cs
    else
      match splitNL cs with
      | [] => [[c]]
      | l :: ls => (c :: l) :: ls

/-- Inverse of `splitNL`: rejoin the pieces with newlines. -/
def joinNL : List (List Char) → List Char
  | [] => []
  | [l] => l
  | l :: ls => l ++ '\n' :: joinNL ls

/-- The chunks yielded by `event_generator` for one responder event
(`chat.py` lines 49-59): the `event:` header line, the `data:` field line(s)
(one per physical line of the payload when it embeds a newline), and the
blank line that closes the frame. -/
def sseChunksOfEvent (e : Event) : List String :=
  let d := serializeData e.data
  ("event: " ++ e.ev ++ "\n") ::
    ((if d.data.contains '\n' then
        (splitNL d.data).map (fun l => "data: " ++ String.mk l ++ "\n")
      else
        ["data: " ++ d ++ "\n"]) ++ ["\n"])

/-- The whole chunk stream of `event_generator` (`chat.py` lines 27-66) for a
responder run that yields `events` and then either finishes normally
(`raised = none`) or raises an exception with text `raised = some e`; in the
latter case the `except` branch synthesizes an `error` frame followed by an
`end` frame.  The function is total: the exception is consumed, never
re-raised towards the transport layer. -/
def event_generator (events : List Event) (raised : Option String) : List String :=
  (events.map sseChunksOfEvent).flatten ++
    (match raised with
     | none => []
     | some e => ["event: error\n", "data: " ++ e ++ "\n\n", "event: end\n", "data: \n\n"])

/-! ## Reading frames back off the chunk stream -/

/-- If the chunk is an `event:` header line, extract the event type written in
it; `data:` field chunks and blank chunks yield `none`. -/
def frameTypeOf (c : String) : Option String :=
  if c.data.take 7 = "event: ".data then
    some (String.mk ((c.data.drop 7).dropLast))
  else none

/-- The sequence of event types announced on a chunk stream. -/
def frameTypes (chunks : List String) : List String :=
  chunks.filterMap frameTypeOf

/-! ## Backing responders

Each responder is an async generator; its interactions with external systems
(LLM streaming, the agent, sleeps) are replaced by explicit parameters, and
its output is the list of events it yields. -/

/-- Python `str.lower()` restricted to ASCII case mapping. -/
def pyLower (s : String) : String :=
  String.mk (s.data.map fun c =>
    if 65 ≤ c.toNat ∧ c.toNat ≤ 90 then Char.ofNat (c.toNat + 32) else c)

/-- Whitespace characters stripped by Python `str.strip()` (ASCII range). -/
def pySpace (c : Char) : Bool :=
  c = ' ' ∨ c = '\t' ∨ c = '\n' ∨ c = '\r' ∨ c = '\x0b' ∨ c = '\x0c'

/-- Python `str.strip()` (ASCII whitespace). -/
def pyStrip (s : String) : String :=
  String.mk (((s.data.dropWhile pySpace).reverse.dropWhile pySpace).reverse)

/-- Character-list prefix test. -/
def listPrefixOf : List Char → List Char → Bool
  | [], _ => true
  | _ :: _, [] => false
  | a :: as, b :: bs => a == b && listPrefixOf as bs

/-- Character-list contiguous-substring test. -/
def listInfixOf : List Char → List Char → Bool
  | needle, [] => needle.isEmpty
  | needle, c :: rest => listPrefixOf needle (c :: rest) || listInfixOf needle rest

/-- Python substring test `needle in hay`. -/
def pyIn (needle hay : String) : Bool :=
  listInfixOf needle.data hay.data

/-- The product inventory table of `mock_service.py`. -/
def productTable : TableData :=
  { columns := [⟨"Product ID", "productId"⟩, ⟨"Product Name", "productName"⟩,
      ⟨"Category", "category"⟩, ⟨"Stock", "stock"⟩, ⟨"Price", "price"⟩],
    rows := [
      [("productId", .cs "P001"), ("productName", .cs "Laptop Pro 15"),
       ("category", .cs "Electronics"), ("stock", .ci 45), ("price", .cs "$1,299.00")],
      [("productId", .cs "P002"), ("productName", .cs "Wireless Mouse"),
       ("category", .cs "Accessories"), ("stock", .ci 230), ("price", .cs "$29.99")],
      [("productId", .cs "P003"), ("productName", .cs "USB-C Hub"),
       ("category", .cs "Accessories"), ("stock", .ci 120), ("price", .cs "$49.99")],
      [("productId", .cs "P004"), ("productName", .cs "Monitor 27\""),
       ("category", .cs "Electronics"), ("stock", .ci 18), ("price", .cs "$399.00")],
      [("productId", .cs "P005"), ("productName", .cs "Keyboard Mechanical"),
       ("category", .cs "Accessories"), ("stock", .ci 67), ("price", .cs "$89.99")]] }

/-- The sales table of `mock_service.py`. -/
def salesTable : TableData :=
  { columns := [⟨"Month", "month"⟩, ⟨"Region", "region"⟩, ⟨"Revenue", "revenue"⟩,
      ⟨"Units Sold", "units"⟩, ⟨"Growth %", "growth"⟩],
    rows := [
      [("month", .cs "January"), ("region", .cs "North America"),
       ("revenue", .cs "$2,450,000"), ("units", .ci 12500), ("growth", .cs "+15.3%")],
      [("month", .cs "January"), ("region", .cs "Europe"),
       ("revenue", .cs "$1,890,000"), ("units", .ci 9800), ("growth", .cs "+8.7%")],
      [("month", .cs "January"), ("region", .cs "Asia Pacific"),
       ("revenue", .cs "$3,120,000"), ("units", .ci 18200), ("growth", .cs "+22.1%")],
      [("month", .cs "February"), ("region", .cs "North America"),
       ("revenue", .cs "$2,680,000"), ("units", .ci 13800), ("growth", .cs "+9.4%")],
      [("month", .cs "February"), ("region", .cs "Europe"),
       ("revenue", .cs "$2,010,000"), ("units", .ci 10500), ("growth", .cs "+6.3%")]] }

/-- Embedding of `mock_service.generate_mock_response`: picks one of three canned scripts
by keyword, always ending with `{"event": "end", "data": ""}`. -/
def generate_mock_response (message : String) : List Event :=
  let message_lower := pyLower message
  (if ["excel", "product", "inventory"].any (fun k => pyIn k message_lower) then
    [⟨"text", .str "Here\x27s the product inventory data you requested:\n\n"⟩,
     ⟨"table", .table productTable⟩]
  else if ["sales", "revenue", "financial"].any (fun k => pyIn k message_lower) then
    [⟨"text", .str "Here\x27s the sales performance data:\n\n"⟩,
     ⟨"table", .table salesTable⟩]
  else
    ["I\x27m a mock AI assistant. ",
     "I can help you with:\n",
     "- Product inventory (try asking about \x27products\x27 or \x27excel\x27)\n",
     "- Sales data (try asking about \x27sales\x27 or \x27revenue\x27)\n",
     "- Financial reports\n\n",
     "This is mock mode. Real LLM integration coming soon!"].map
       (fun t => Event.mk "text" (.str t))) ++ [⟨"end", .str ""⟩]

/-- Embedding of `llm_service.generate_llm_response`: the LLM stream is the oracle
`chunks` (the chunks consumed before the run ends); empty chunks are skipped.
On normal completion one `end` event closes the stream; an exception anywhere
in the body is caught by the function itself and turned into an `error` event
followed by an `end` event. -/
def generate_llm_response (chunks : List String) (failure : Option String) : List Event :=
  ((chunks.filter (fun c => ¬(c = ""))).map (fun c => Event.mk "text" (.str c))) ++
    (match failure with
     | none => [⟨"end", .str ""⟩]
     | some e => [⟨"error", .str ("LLM Error: " ++ e)⟩, ⟨"end", .str ""⟩])

/-- Embedding of `deepagent_service.generate_deepagent_response`: `streamTexts` are the
texts extracted from the agent stream (empty ones skipped); if the stream
produced no output, the invoke fallback either yields the joined fallback
chunks as one text event (when non-empty) or, when it raises, one `error`
event; an exception in the outer body is caught and turned into an `error`
event.  Every path ends with exactly one `end` event. -/
def generate_deepagent_response (streamTexts : List String)
    (outerFailure : Option String) (fallback : Except String (List String)) : List Event :=
  let textEvents := (streamTexts.filter (fun t => ¬(t = ""))).map
    (fun t => Event.mk "text" (.str t))
  match outerFailure with
  | some e => textEvents ++ [⟨"error", .str ("DeepAgent Error: " ++ e)⟩, ⟨"end", .str ""⟩]
  | none =>
    if textEvents.isEmpty then
      (match fallback with
       | .ok cs => if cs.isEmpty then [] else [⟨"text", .str (String.join cs)⟩]
       | .error fe => [⟨"error", .str ("Agent error: " ++ fe)⟩]) ++ [⟨"end", .str ""⟩]
    else textEvents ++ [⟨"end", .str ""⟩]

/-! ## Stream-shape predicates -/

/-- The shape of a backing responder run as seen by `event_generator`:
either it completes normally, in which case its last event is the single
`end` event, or it raises, in which case no `end` event was yielded before
the exception. -/
def ResponderShape (events : List Event) (raised : Option String) : Prop :=
  match raised with
  | none => ∃ es, events = es ++ [⟨"end", .str ""⟩] ∧ ∀ e ∈ es, e.ev ≠ "end"
  | some _ => ∀ e ∈ events, e.ev ≠ "end"

/-- The chunk stream announces exactly one `end` event, and it is the final
event of the stream. -/
def EndOnceLast (chunks : List String) : Prop :=
  ∃ ts, frameTypes chunks = ts ++ ["end"] ∧ "end" ∉ ts

/-- The payload text carried by a `data:` field chunk (everything between the
`"data: "` prefix and the final newline). -/
def dataChunkPayload (c : String) : List Char :=
  (c.data.drop 6).dropLast

/-- The multi-line-payload sentence of the spec, read over every chunk the
endpoint emits: every `data:` field chunk of every generated stream carries a
payload free of embedded newlines (i.e. multi-line payloads are always split
into separate physical `data:` lines). -/
def ClaimC9 : Prop :=
  ∀ events raised, ∀ c ∈ event_generator events raised,
    c.data.take 6 = "data: ".data → (dataChunkPayload c).contains '\n' = false

/-! ## Part 4: the supervisor-pattern memo workflow
(`04-deal-memo-generator-done/memo_generator.py`)

The LangGraph nodes call an LLM and MCP tools; those external calls are
oracles, supplied as functions of the step counter.  Everything the script
itself computes (validation, fallbacks, routing, state updates) is embedded
directly. -/

/-- The workflow state record (`MemoState` TypedDict).  `stock_data` is the
dict returned by the stock tool, modelled as an association list. -/
structure MemoState where
  company_name : String
  ticker : String
  stock_data : List (String × String)
  news_data : String
  doc_data : String
  next_action : String
  gathered_sources : List String
  memo : String
  quality_score : Int
  iteration : Nat
deriving DecidableEq, Repr

/-- The valid supervisor actions (`supervisor_node`, line 272). -/
def validActions : List String :=
  ["get_stock", "get_news", "get_docs", "generate_memo"]

/-- The action-selection logic of `supervisor_node` (lines 268-278): the model
reply is stripped and lowercased; if the result is not a valid action the
deterministic fallback picks `get_stock` when no stock data is present and
`generate_memo` otherwise. -/
def supervisorAction (reply : String) (stock_data : List (String × String)) : String :=
  let action := pyLower (pyStrip reply)
  if validActions.contains action then action
  else if stock_data.isEmpty then "get_stock" else "generate_memo"

/-- Python `int(s)` on a stripped string: an optional sign followed by at
least one ASCII digit.  (CPython also accepts underscore digit grouping and
non-ASCII digits; those inputs are treated as unparseable here, which only
matters for inputs the quality model will not produce.) -/
def digitsVal : List Char → Nat → Option Nat
  | [], acc => some acc
  | c :: cs, acc =>
    if '0' ≤ c ∧ c ≤ '9' then digitsVal cs (acc * 10 + (c.toNat - 48)) else none

/-- Python `int(s)` (see `digitsVal`). -/
def parseIntPy (s : String) : Option Int :=
  match s.data with
  | [] => none
  | '+' :: ds => if ds.isEmpty then none else (digitsVal ds 0).map Int.ofNat
  | '-' :: ds => if ds.isEmpty then none else (digitsVal ds 0).map (fun n => -(n : Int))
  | ds => (digitsVal ds 0).map Int.ofNat

/-- The score extraction of `quality_check_node` (lines 386-389):
`int(reply.strip())`, defaulting to 7 when parsing raises `ValueError`. -/
def quality_score_of (reply : String) : Int :=
  match parseIntPy (pyStrip reply) with
  | some n => n
  | none => 7

/-- Embedding of `route_quality` (lines 404-409): refine only when the score is below 6
and fewer than 2 generation iterations have happened. -/
def route_quality (s : MemoState) : String :=
  if s.quality_score < 6 ∧ s.iteration < 2 then "refine" else "end"

/-- The nodes of the workflow graph, plus the terminal `END` marker. -/
inductive Node where
  | supervisor
  | get_stock
  | get_news
  | get_docs
  | generate_memo
  | quality_check
  | done
deriving DecidableEq, Repr

/-- Oracles for the external calls made by the nodes, indexed by the global
step counter: the supervisor LLM reply, the generated memo text, the quality
LLM reply, and the three tool-call outcomes (`Except` carries the exception
text of a failed call). -/
structure Env where
  supReply : Nat → String
  memoText : Nat → String
  qualityReply : Nat → String
  stockResult : Nat → Except String (List (String × String))
  newsResult : Nat → Except String String
  docsResult : Nat → Except String String

/-- A point in a workflow run: the node about to execute, the current state,
and the step counter. -/
structure Config where
  node : Node
  state : MemoState
  time : Nat

/-- The conditional-edge map after `supervisor` (lines 433-442); the routing
function returns `state["next_action"]`, which `supervisorAction` guarantees
is one of the four valid actions. -/
def routeSupervisorNode (action : String) : Node :=
  if action = "get_stock" then .get_stock
  else if action = "get_news" then .get_news
  else if action = "get_docs" then .get_docs
  else .generate_memo

/-- One node execution followed by the edge out of it: supervisor picks and
routes on an action; each fetch node stores its tool result (or an inline
error value) and returns to the supervisor; `generate_memo` stores the memo
and increments the iteration counter; `quality_check` stores the score and
routes via `route_quality`; `done` (END) is absorbing. -/
def stepNode (env : Env) (c : Config) : Config :=
  match c.node with
  | .supervisor =>
    let action := supervisorAction (env.supReply c.time) c.state.stock_data
    ⟨routeSupervisorNode action, { c.state with next_action := action }, c.time + 1⟩
  | .get_stock =>
    match env.stockResult c.time with
    | .ok d =>
      ⟨.supervisor,
       { c.state with
          stock_data := d
          gathered_sources := c.state.gathered_sources ++ ["stock"] },
       c.time + 1⟩
    | .error e => ⟨.supervisor, { c.state with stock_data := [("error", e)] }, c.time + 1⟩
  | .get_news =>
    match env.newsResult c.time with
    | .ok d =>
      ⟨.supervisor,
       { c.state with
          news_data := d
          gathered_sources := c.state.gathered_sources ++ ["news"] },
       c.time + 1⟩
    | .error e => ⟨.supervisor, { c.state with news_data := "Error: " ++ e }, c.time + 1⟩
  | .get_docs =>
    match env.docsResult c.time with
    | .ok d =>
      ⟨.supervisor,
       { c.state with
          doc_data := d
          gathered_sources := c.state.gathered_sources ++ ["docs"] },
       c.time + 1⟩
    | .error e => ⟨.supervisor, { c.state with doc_data := "Error: " ++ e }, c.time + 1⟩
  | .generate_memo =>
    ⟨.quality_check,
     { c.state with
        memo := env.memoText c.time
        iteration := c.state.iteration + 1 },
     c.time + 1⟩
  | .quality_check =>
    let s := { c.state with quality_score := quality_score_of (env.qualityReply c.time) }
    ⟨if route_quality s = "refine" then .generate_memo else .done, s, c.time + 1⟩
  | .done => c

/-- Iterate `stepNode` for `n` steps. -/
def runWorkflow (env : Env) : Nat → Config → Config
  | 0, c => c
  | n + 1, c => runWorkflow env n (stepNode env c)

/-- The initial state built in `main` (lines 483-494). -/
def initialState (company ticker : String) : MemoState :=
  { company_name := company, ticker := ticker, stock_data := [], news_data := "",
    doc_data := "", next_action := "", gathered_sources := [], memo := "",
    quality_score := 0, iteration := 0 }

/-- Runs enter the graph at `supervisor` (edge `START -> supervisor`). -/
def initialConfig (company ticker : String) : Config :=
  ⟨.supervisor, initialState company ticker, 0⟩

/-- Invariant for the iteration bound: the counter never exceeds the cap 2,
is at most 1 when the memo-generation node is about to run, and is still 0
anywhere in the supervisor/fetch loop. -/
def WorkflowInv (c : Config) : Prop :=
  c.state.iteration ≤ 2 ∧
  (c.node = .generate_memo → c.state.iteration ≤ 1) ∧
  ((c.node = .supervisor ∨ c.node = .get_stock ∨ c.node = .get_news ∨ c.node = .get_docs) →
    c.state.iteration = 0)

/-! ## Part 5: session storage (`session_storage.py`, `chat_history.py`)

Python `datetime` values are modelled as integer time points; the stdlib
`isoformat` / `fromisoformat` pair, mutually inverse, is then the identity,
and comparison of parsed datetimes is integer comparison.  The JSON file body
written by `_save_session` is modelled structurally (`StoredSession`):
`json.dumps` followed by `json.loads` on it is the identity of the Python
standard library, so the file content is represented by the document tree
itself. -/

abbrev Timestamp := Int

/-- An image attachment of a chat message (`ChatAttachment`). -/
structure ChatAttachment where
  id : String
  name : String
  mime_type : String
  size : Nat
  data : String
deriving DecidableEq, Repr

/-- One chat message (`ChatMessage`): role, text content, timestamp, optional
tables and optional attachments (both default `None`). -/
structure ChatMessage where
  role : String
  content : String
  timestamp : Timestamp
  tables : Option (List TableData) := none
  attachments : Option (List ChatAttachment) := none
deriving DecidableEq, Repr

/-- A chat session (`ChatSession`). -/
structure ChatSession where
  session_id : String
  title : String
  messages : List ChatMessage
  created_at : Timestamp
  updated_at : Timestamp
  title_generated : Bool := false
deriving DecidableEq, Repr

/-- The message dict written into the session file by `_save_session`
(lines 76-96): role, content, timestamp, and the `tables` / `attachments`
keys present exactly when the corresponding field is truthy (non-`None` and
non-empty). -/
structure StoredMessage where
  role : String
  content : String
  timestamp : Timestamp
  tables : Option (List TableData)
  attachments : Option (List ChatAttachment)
deriving DecidableEq, Repr

/-- The session file document written by `_save_session` (lines 72-101). -/
structure StoredSession where
  session_id : String
  title : String
  title_generated : Bool
  messages : List StoredMessage
  created_at : Timestamp
  updated_at : Timestamp
deriving DecidableEq, Repr

/-- Serialization of one message (`_save_session`, lines 77-96); the nested
table/attachment dicts are rebuilt field by field. -/
def saveMessage (m : ChatMessage) : StoredMessage :=
  { role := m.role, content := m.content, timestamp := m.timestamp,
    tables := match m.tables with
      | some ts =>
        if ts.isEmpty then none
        else some (ts.map fun t =>
          TableData.mk (t.columns.map fun col => TableColumn.mk col.header col.accessor) t.rows)
      | none => none,
    attachments := match m.attachments with
      | some atts =>
        if atts.isEmpty then none
        else some (atts.map fun a =>
          ChatAttachment.mk a.id a.name a.mime_type a.size a.data)
      | none => none }

/-- Embedding of `_save_session`: the document written to the session JSON file. -/
def save_session_doc (s : ChatSession) : StoredSession :=
  { session_id := s.session_id, title := s.title, title_generated := s.title_generated,
    messages := s.messages.map saveMessage,
    created_at := s.created_at, updated_at := s.updated_at }

/-- Parsing of one stored message (`get_session`, lines 113-135): role,
content and timestamp always; tables/attachments only when their key is
present, otherwise the `ChatMessage` defaults (`None`) remain. -/
def loadMessage (sm : StoredMessage) : ChatMessage :=
  { role := sm.role, content := sm.content, timestamp := sm.timestamp,
    tables := sm.tables.map (List.map fun t =>
      TableData.mk (t.columns.map fun col => TableColumn.mk col.header col.accessor) t.rows),
    attachments := sm.attachments.map (List.map fun a =>
      ChatAttachment.mk a.id a.name a.mime_type a.size a.data) }

/-- The session reconstruction of `get_session` (lines 110-144) applied to a
parsed session file. -/
def parse_session (d : StoredSession) : ChatSession :=
  { session_id := d.session_id, title := d.title,
    messages := d.messages.map loadMessage,
    created_at := d.created_at, updated_at := d.updated_at,
    title_generated := d.title_generated }

/-- One entry of the flat `index.json` file. -/
structure IndexEntry where
  session_id : String
  title : String
  created_at : Timestamp
  updated_at : Timestamp
  message_count : Nat
deriving DecidableEq, Repr

/-- The on-disk state of a `SessionStorage`: the index file plus the session
files, keyed by session id (one file per id). -/
structure Storage where
  index : List IndexEntry
  files : List (String × StoredSession)
deriving DecidableEq, Repr

/-- Embedding of `get_session`: `None` when the session file does not exist, otherwise the
parsed file. -/
def get_session (st : Storage) (sid : String) : Option ChatSession :=
  (st.files.lookup sid).map parse_session

/-- Writing a session file (path-keyed overwrite). -/
def write_session (st : Storage) (s : ChatSession) : Storage :=
  { st with files :=
      (s.session_id, save_session_doc s) :: st.files.filter (fun p => ¬(p.1 = s.session_id)) }

/-- One list item returned by `list_sessions` (`ChatHistoryItem`). -/
structure ChatHistoryItem where
  session_id : String
  title : String
  last_message : String
  timestamp : Timestamp
  message_count : Nat
deriving DecidableEq, Repr

/-- The items built from the index by `list_sessions` (lines 148-165), in
index order: metadata from the index entry, `last_message` the first 100
characters of the last message of the session file when it exists and is
non-empty. -/
def rawItems (st : Storage) : List ChatHistoryItem :=
  st.index.map fun entry =>
    { session_id := entry.session_id, title := entry.title,
      last_message :=
        match get_session st entry.session_id with
        | some session =>
          match session.messages.getLast? with
          | some m => String.mk (m.content.data.take 100)
          | none => ""
        | none => "",
      timestamp := entry.updated_at,
      message_count := entry.message_count }

/-- Embedding of `items.sort(key=lambda x: x.timestamp, reverse=True)`: Python's stable
sort in reverse order, i.e. a stable insertion sort along
"comes no later than" = "has timestamp ≥". -/
def list_sessions (st : Storage) : List ChatHistoryItem :=
  List.insertionSort (fun a b => b.timestamp ≤ a.timestamp) (rawItems st)

/-- Embedding of `create_session` (lines 40-67): generated id and timestamps are external
(`uuid4`, `utcnow`), supplied as parameters; writes the session file and
appends the index entry. -/
def create_session (st : Storage) (freshId : String) (now : Timestamp) (title : String) :
    Storage × ChatSession :=
  let session : ChatSession :=
    { session_id := freshId, title := title, messages := [],
      created_at := now, updated_at := now }
  let st1 := write_session st session
  ({ st1 with index := st1.index ++
      [{ session_id := freshId, title := title, created_at := now,
         updated_at := now, message_count := 0 }] },
   session)

/-- Embedding of `delete_session` (lines 186-200): fails (returns `False`, here `none`)
when the session file does not exist; otherwise removes the file and filters
the index. -/
def delete_session (st : Storage) (sid : String) : Option Storage :=
  if (st.files.lookup sid).isSome then
    some { index := st.index.filter (fun e => ¬(e.session_id = sid)),
           files := st.files.filter (fun p => ¬(p.1 = sid)) }
  else none

/-- The `DELETE /api/chat-history/{session_id}` endpoint
(`chat_history.delete_chat_session`, lines 127-156): 404 (`none`) when the
session does not exist; otherwise delete, and when no session remains create
a fresh "New Chat" session and return its id as the replacement id (`none`
as replacement id when sessions remain). -/
def delete_chat_session (st : Storage) (sid freshId : String) (now : Timestamp) :
    Option (Storage × Option String) :=
  match delete_session st sid with
  | none => none
  | some st1 =>
    if (list_sessions st1).length = 0 then
      let res := create_session st1 freshId now "New Chat"
      some (res.1, some res.2.session_id)
    else some (st1, none)


/-! # Theorems -/

/-! ## Generic facts about strings and chunks -/

theorem data_append (a b : String) : (a ++ b).data = a.data ++ b.data := rfl

theorem mk_data (s : String) : String.mk s.data = s := rfl

theorem frameTypeOf_header (ev : String) :
    frameTypeOf ("event: " ++ ev ++ "\n") = some ev := by
  have h : ("event: " ++ ev ++ "\n").data = "event: ".data ++ (ev.data ++ ['\n']) := by
    simp [data_append]
  have h7 : ("event: ".data).length = 7 := rfl
  rw [frameTypeOf, h, List.take_left' h7, if_pos rfl, List.drop_left' h7,
    List.dropLast_concat, mk_data]

theorem frameTypeOf_data (x : String) :
    frameTypeOf ("data: " ++ x ++ "\n") = none := by
  have h : ("data: " ++ x ++ "\n").data = "data: ".data ++ (x.data ++ ['\n']) := by
    simp [data_append]
  rw [frameTypeOf, h]
  simp [List.take_cons]

theorem frameTypeOf_blank : frameTypeOf "\n" = none := by decide

theorem frameTypes_append (l₁ l₂ : List String) :
    frameTypes (l₁ ++ l₂) = frameTypes l₁ ++ frameTypes l₂ :=
  List.filterMap_append ..

theorem frameTypes_sseChunks (e : Event) :
    frameTypes (sseChunksOfEvent e) = [e.ev] := by
  rw [sseChunksOfEvent]
  split
  · simp [frameTypes, frameTypeOf_header, frameTypeOf_blank]
    intro l hl
    exact frameTypeOf_data _
  · simp [frameTypes, frameTypeOf_header, frameTypeOf_blank, frameTypeOf_data]

theorem frameTypes_generator (events : List Event) (raised : Option String) :
    frameTypes (event_generator events raised) =
      events.map (·.ev) ++ (match raised with | none => [] | some _ => ["error", "end"]) := by
  rw [event_generator.eq_def, frameTypes_append]
  congr 1
  · induction events with
    | nil => rfl
    | cons e es ih => simp [frameTypes_append, frameTypes_sseChunks, ih]
  · match raised with
    | none => rfl
    | some e =>
      have h1 : frameTypeOf "event: error\n" = some "error" := by decide
      have h3 : frameTypeOf "event: end\n" = some "end" := by decide
      have h2 : frameTypeOf ("data: " ++ e ++ "\n\n") = none := by
        have : ("data: " ++ e ++ "\n\n") = "data: " ++ (e ++ "\n") ++ "\n" := by
          simp [String.append_assoc]
        rw [this, frameTypeOf_data]
      have h4 : frameTypeOf "data: \n\n" = none := by decide
      simp [frameTypes, h1, h2, h3, h4]

/-! ## Responder stream shapes -/

theorem shape_of_concat (es : List Event) (h : ∀ e ∈ es, e.ev ≠ "end") :
    ResponderShape (es ++ [⟨"end", .str ""⟩]) none :=
  ⟨es, rfl, h⟩

theorem mock_shape (msg : String) : ResponderShape (generate_mock_response msg) none := by
  rw [generate_mock_response]
  refine shape_of_concat _ ?_
  split
  · decide
  · split
    · decide
    · decide

theorem llm_shape (chunks : List String) (failure : Option String) :
    ResponderShape (generate_llm_response chunks failure) none := by
  rw [generate_llm_response.eq_def]
  cases failure with
  | none =>
    refine shape_of_concat _ ?_
    intro e he
    obtain ⟨c, _, rfl⟩ := List.mem_map.1 he
    simp
  | some err =>
    refine ⟨(chunks.filter (fun c => ¬(c = ""))).map (fun c => Event.mk "text" (.str c)) ++
      [⟨"error", .str ("LLM Error: " ++ err)⟩], by simp, ?_⟩
    intro e he
    rcases List.mem_append.1 he with h | h
    · obtain ⟨c, _, rfl⟩ := List.mem_map.1 h
      simp
    · simp at h
      subst h
      simp

theorem deepagent_shape (texts : List String) (outerFailure : Option String)
    (fallback : Except String (List String)) :
    ResponderShape (generate_deepagent_response texts outerFailure fallback) none := by
  rw [generate_deepagent_response.eq_def]
  cases outerFailure with
  | some err =>
    refine ⟨(texts.filter (fun t => ¬(t = ""))).map (fun t => Event.mk "text" (.str t)) ++
      [⟨"error", .str ("DeepAgent Error: " ++ err)⟩], by simp, ?_⟩
    intro e he
    rcases List.mem_append.1 he with h | h
    · obtain ⟨c, _, rfl⟩ := List.mem_map.1 h
      simp
    · simp at h
      subst h
      simp
  | none =>
    simp only []
    split
    · refine shape_of_concat _ ?_
      split
      · split
        · simp
        · simp
      · simp
    · refine shape_of_concat _ ?_
      intro e he
      obtain ⟨c, _, rfl⟩ := List.mem_map.1 he
      simp

theorem endOnceLast_of_shape (events : List Event) (raised : Option String)
    (h : ResponderShape events raised) : EndOnceLast (event_generator events raised) := by
  cases raised with
  | none =>
    obtain ⟨es, hev, hne⟩ := h
    refine ⟨es.map (·.ev), ?_, ?_⟩
    · rw [frameTypes_generator, hev]
      simp
    · intro hmem
      obtain ⟨e, he, heq⟩ := List.mem_map.1 hmem
      exact hne e he heq
  | some err =>
    refine ⟨events.map (·.ev) ++ ["error"], ?_, ?_⟩
    · rw [frameTypes_generator]
      simp
    · intro hmem
      rcases List.mem_append.1 hmem with hm | hm
      · obtain ⟨e, he, heq⟩ := List.mem_map.1 hm
        exact h e he heq
      · simp at hm

/-- C1: every event sequence produced by a backing responder (mock, plain-LLM
or agentic) satisfies the `ResponderShape` contract, and for every responder
run satisfying that contract — normal completion or exception — the SSE chunk
stream produced by the chat-stream endpoint's event generator announces
exactly one `end` event, as the final event of the stream. -/
theorem chat_stream_end_event_once_and_last :
    (∀ msg, ResponderShape (generate_mock_response msg) none) ∧
    (∀ chunks failure, ResponderShape (generate_llm_response chunks failure) none) ∧
    (∀ texts outerFailure fallback,
      ResponderShape (generate_deepagent_response texts outerFailure fallback) none) ∧
    (∀ events raised, ResponderShape events raised →
      EndOnceLast (event_generator events raised)) :=
  ⟨mock_shape, llm_shape, deepagent_shape, endOnceLast_of_shape⟩

/-- Witness for C1 at a concrete responder run. -/
theorem chat_stream_end_event_once_and_last_witness :
    EndOnceLast (event_generator [⟨"text", .str "hi"⟩, ⟨"end", .str ""⟩] none) :=
  chat_stream_end_event_once_and_last.2.2.2 _ none ⟨[⟨"text", .str "hi"⟩], rfl, by decide⟩

/-- C2: when the backing responder raises with text `e` after yielding
`events`, the generated stream is the frames of `events` followed by an
`error` frame carrying `e` and an `end` frame; the generator is a total
function of the outcome, so the exception never reaches the transport
layer. -/
theorem chat_stream_exception_error_then_end (events : List Event) (e : String) :
    event_generator events (some e) =
      (events.map sseChunksOfEvent).flatten ++
        ["event: error\n", "data: " ++ e ++ "\n\n", "event: end\n", "data: \n\n"] ∧
    frameTypes (event_generator events (some e)) = events.map (·.ev) ++ ["error", "end"] :=
  ⟨rfl, frameTypes_generator events (some e)⟩

/-! ## Splitting multi-line payloads -/

theorem splitNL_ne_nil (l : List Char) : splitNL l ≠ [] := by
  match l with
  | [] => simp [splitNL]
  | c :: cs =>
    rw [splitNL]
    split
    · simp
    · match h : splitNL cs with
      | [] => simp
      | p :: ps => simp

theorem splitNL_no_newline (l : List Char) : ∀ p ∈ splitNL l, p.contains '\n' = false := by
  induction l with
  | nil =>
    intro p hp
    simp [splitNL] at hp
    subst hp
    rfl
  | cons c cs ih =>
    intro p hp
    rw [splitNL] at hp
    by_cases hc : c = '\n'
    · rw [if_pos hc] at hp
      rcases List.mem_cons.1 hp with h | h
      · simp [h]
      · exact ih p h
    · rw [if_neg hc] at hp
      match hs : splitNL cs with
      | [] => exact absurd hs (splitNL_ne_nil cs)
      | q :: qs =>
        rw [hs] at hp
        rcases List.mem_cons.1 hp with h | h
        · subst h
          have hq : q.contains '\n' = false := ih q (by rw [hs]; exact List.mem_cons_self ..)
          rw [List.contains_cons]
          simp [beq_iff_eq]
          simp at hq
          exact ⟨fun heq => hc (Eq.symm heq), hq⟩
        · exact ih p (by rw [hs]; exact List.mem_cons_of_mem _ h)

theorem join_splitNL (l : List Char) : joinNL (splitNL l) = l := by
  induction l with
  | nil => rfl
  | cons c cs ih =>
    rw [splitNL]
    by_cases hc : c = '\n'
    · rw [if_pos hc]
      match hs : splitNL cs with
      | [] => exact absurd hs (splitNL_ne_nil cs)
      | q :: qs =>
        rw [hs] at ih
        subst hc
        simp [joinNL, ih]
    · rw [if_neg hc]
      match hs : splitNL cs with
      | [] => exact absurd hs (splitNL_ne_nil cs)
      | q :: qs =>
        rw [hs] at ih
        match qs with
        | [] =>
          simp [joinNL] at ih ⊢
          exact ih
        | r :: rs =>
          simp [joinNL] at ih ⊢
          rw [← ih]

theorem splitNL_of_no_newline (l : List Char) (h : l.contains '\n' = false) :
    splitNL l = [l] := by
  induction l with
  | nil => rfl
  | cons c cs ih =>
    rw [List.contains_cons, Bool.or_eq_false_iff] at h
    have hc : ¬(c = '\n') := fun heq => by simp [heq] at h
    rw [splitNL, if_neg hc, ih h.2]

theorem header_ne_blank (ev : String) : ("event: " ++ ev ++ "\n") ≠ "\n" := by
  intro h
  have h2 := congrArg String.data h
  simp [data_append] at h2

theorem data_chunk_ne_blank (x : String) : ("data: " ++ x ++ "\n") ≠ "\n" := by
  intro h
  have h2 := congrArg String.data h
  simp [data_append] at h2

/-- C9 counterexample: the stream generated for a responder exception whose
text embeds a newline contains a `data:` field chunk whose payload still
embeds the newline — the exception-path payload is not split into physical
lines, refuting the claim read over every emitted event payload. -/
theorem sse_split_claim_false : ¬ ClaimC9 := fun h =>
  absurd (h [] (some "a\nb") "data: a\nb\n\n" (by decide) (by decide)) (by decide)

/-- C9 (amended): for every event received from the backing responder, the
frame is the `event:` header, one `data:` field per physical line of the
serialized payload (so payloads embedding a line separator are split), the
lines are newline-free and rejoin to the payload, and the frame is closed by
exactly one blank line.  (The synthesized exception-path `error` frame is
emitted as a single unsplit `data:` field — see the counterexample.) -/
theorem sse_frame_structure (e : Event) :
    sseChunksOfEvent e =
      ("event: " ++ e.ev ++ "\n") ::
        ((splitNL (serializeData e.data).data).map (fun l => "data: " ++ String.mk l ++ "\n")
          ++ ["\n"]) ∧
    (splitNL (serializeData e.data).data).Forall (fun l => l.contains '\n' = false) ∧
    joinNL (splitNL (serializeData e.data).data) = (serializeData e.data).data ∧
    (sseChunksOfEvent e).count "\n" = 1 := by
  have hchunks : sseChunksOfEvent e =
      ("event: " ++ e.ev ++ "\n") ::
        ((splitNL (serializeData e.data).data).map (fun l => "data: " ++ String.mk l ++ "\n")
          ++ ["\n"]) := by
    rw [sseChunksOfEvent]
    split
    · rfl
    · rename_i hns
      rw [splitNL_of_no_newline _ (Bool.not_eq_true _ ▸ hns), List.map_singleton, mk_data]
  refine ⟨hchunks, ?_, join_splitNL _, ?_⟩
  · exact List.forall_iff_forall_mem.2 (splitNL_no_newline _)
  · rw [hchunks, List.count_cons, List.count_append]
    have h1 : ((splitNL (serializeData e.data).data).map
        (fun l => "data: " ++ String.mk l ++ "\n")).count "\n" = 0 := by
      rw [List.count_eq_zero]
      intro hmem
      obtain ⟨l, _, hl⟩ := List.mem_map.1 hmem
      exact data_chunk_ne_blank _ hl
    simp [h1, header_ne_blank]

/-! ## Part 4 workflow claims -/

/-- C3: the quality routing returns `refine` exactly when the score is below
the threshold 6 and the iteration counter is below the cap 2, and `end` in
every other case. -/
theorem route_quality_refine_iff (s : MemoState) :
    (route_quality s = "refine" ↔ (s.quality_score < 6 ∧ s.iteration < 2)) ∧
    (route_quality s = "end" ↔ (6 ≤ s.quality_score ∨ 2 ≤ s.iteration)) := by
  by_cases h1 : s.quality_score < 6 ∧ s.iteration < 2
  · rw [route_quality, if_pos h1]
    refine ⟨⟨fun _ => h1, fun _ => rfl⟩, ⟨fun heq => absurd heq (by decide), fun hor => ?_⟩⟩
    rcases hor with h | h
    · exact absurd h1.1 (by omega)
    · exact absurd h1.2 (by omega)
  · rw [route_quality, if_neg h1]
    have hor : 6 ≤ s.quality_score ∨ 2 ≤ s.iteration := by
      rcases not_and_or.1 h1 with h | h
      · exact Or.inl (by omega)
      · exact Or.inr (by omega)
    exact ⟨⟨fun heq => absurd heq (by decide), fun hand => absurd hand h1⟩,
           ⟨fun _ => hor, fun _ => rfl⟩⟩

/-! Invariant machinery for the iteration bound. -/

theorem inv_step (env : Env) (c : Config) (h : WorkflowInv c) : WorkflowInv (stepNode env c) := by
  obtain ⟨hb, hg, hz⟩ := h
  match hcn : c.node with
  | .supervisor =>
    have h0 : c.state.iteration = 0 := hz (Or.inl hcn)
    exact ⟨by simp [stepNode, hcn, h0], fun _ => by simp [stepNode, hcn, h0],
      fun _ => by simp [stepNode, hcn, h0]⟩
  | .get_stock =>
    have h0 : c.state.iteration = 0 := hz (Or.inr (Or.inl hcn))
    cases hres : env.stockResult c.time with
    | ok d =>
      exact ⟨by simp [stepNode, hcn, hres, h0], fun hh => by simp [stepNode, hcn, hres] at hh,
        fun _ => by simp [stepNode, hcn, hres, h0]⟩
    | error e =>
      exact ⟨by simp [stepNode, hcn, hres, h0], fun hh => by simp [stepNode, hcn, hres] at hh,
        fun _ => by simp [stepNode, hcn, hres, h0]⟩
  | .get_news =>
    have h0 : c.state.iteration = 0 := hz (Or.inr (Or.inr (Or.inl hcn)))
    cases hres : env.newsResult c.time with
    | ok d =>
      exact ⟨by simp [stepNode, hcn, hres, h0], fun hh => by simp [stepNode, hcn, hres] at hh,
        fun _ => by simp [stepNode, hcn, hres, h0]⟩
    | error e =>
      exact ⟨by simp [stepNode, hcn, hres, h0], fun hh => by simp [stepNode, hcn, hres] at hh,
        fun _ => by simp [stepNode, hcn, hres, h0]⟩
  | .get_docs =>
    have h0 : c.state.iteration = 0 := hz (Or.inr (Or.inr (Or.inr hcn)))
    cases hres : env.docsResult c.time with
    | ok d =>
      exact ⟨by simp [stepNode, hcn, hres, h0], fun hh => by simp [stepNode, hcn, hres] at hh,
        fun _ => by simp [stepNode, hcn, hres, h0]⟩
    | error e =>
      exact ⟨by simp [stepNode, hcn, hres, h0], fun hh => by simp [stepNode, hcn, hres] at hh,
        fun _ => by simp [stepNode, hcn, hres, h0]⟩
  | .generate_memo =>
    have h1 : c.state.iteration ≤ 1 := hg hcn
    refine ⟨by simp [stepNode, hcn]; omega, fun hh => by simp [stepNode, hcn] at hh,
      fun hh => by simp [stepNode, hcn] at hh⟩
  | .quality_check =>
    refine ⟨by simp [stepNode, hcn]; exact hb, ?_, ?_⟩
    · simp only [stepNode, hcn]
      split
      · rename_i hroute
        intro _
        rw [route_quality] at hroute
        by_cases hcond : ({ c.state with
            quality_score := quality_score_of (env.qualityReply c.time) }.quality_score < 6 ∧
            { c.state with
              quality_score := quality_score_of (env.qualityReply c.time) }.iteration < 2)
        · have h2 : c.state.iteration < 2 := by simpa using hcond.2
          simpa using Nat.lt_succ_iff.1 h2
        · rw [if_neg hcond] at hroute
          exact absurd hroute (by decide)
      · intro hh
        simp at hh
    · simp only [stepNode, hcn]
      split
      · intro hh
        rcases hh with h | h | h | h <;> simp at h
      · intro hh
        rcases hh with h | h | h | h <;> simp at h
  | .done =>
    have hstep : stepNode env c = c := by simp [stepNode, hcn]
    rw [hstep]
    exact ⟨hb, hg, hz⟩

theorem inv_run (env : Env) (n : Nat) (c : Config) (h : WorkflowInv c) :
    WorkflowInv (runWorkflow env n c) := by
  induction n generalizing c with
  | zero => exact h
  | succ n ih => exact ih _ (inv_step env c h)

/-- C4: in every run of the workflow graph from the initial state (iteration
counter 0), whatever the oracle replies and tool outcomes, the iteration
counter — incremented only by the memo-generation node — never exceeds the
refinement cap 2. -/
theorem memo_workflow_iteration_bounded (env : Env) (company ticker : String) (n : Nat) :
    (runWorkflow env n (initialConfig company ticker)).state.iteration ≤ 2 :=
  (inv_run env n _ ⟨by simp [initialConfig, initialState],
    fun _ => by simp [initialConfig, initialState],
    fun _ => by simp [initialConfig, initialState]⟩).1

/-- C5: the supervisor always selects an action in the fixed valid set, and
when the stripped-lowercased model reply is not in the set it selects the
deterministic fallback: `get_stock` when stock data is absent, otherwise
`generate_memo`. -/
theorem supervisor_action_valid_and_fallback (reply : String)
    (stock_data : List (String × String)) :
    supervisorAction reply stock_data ∈ validActions ∧
    (pyLower (pyStrip reply) ∉ validActions →
      supervisorAction reply stock_data =
        if stock_data.isEmpty then "get_stock" else "generate_memo") := by
  rw [supervisorAction]
  by_cases h : validActions.contains (pyLower (pyStrip reply))
  · rw [if_pos h]
    have hmem : pyLower (pyStrip reply) ∈ validActions := by
      simpa using h
    exact ⟨hmem, fun hn => absurd hmem hn⟩
  · rw [if_neg h]
    constructor
    · split <;> decide
    · intro _
      rfl

/-- Witness for C5 at a malformed reply with empty stock data. -/
theorem supervisor_action_valid_and_fallback_witness :
    supervisorAction "fetch everything" [] ∈ validActions ∧
    supervisorAction "fetch everything" [] = "get_stock" := by
  have h := supervisor_action_valid_and_fallback "fetch everything" []
  refine ⟨h.1, ?_⟩
  have h2 := h.2 (by decide)
  simpa using h2

/-- C6: a quality reply whose stripped text does not parse as an integer gets
the default score 7, and a state whose score is 7 is never routed to
`refine` (7 is not below the threshold 6). -/
theorem quality_default_score_passes (reply : String)
    (h : parseIntPy (pyStrip reply) = none) :
    quality_score_of reply = 7 ∧
    ∀ s : MemoState, s.quality_score = 7 → route_quality s = "end" := by
  refine ⟨by rw [quality_score_of, h], fun s hs => ?_⟩
  have hneg : ¬(s.quality_score < 6 ∧ s.iteration < 2) := by
    rw [hs]
    rintro ⟨h1, _⟩
    omega
  rw [route_quality, if_neg hneg]

/-- Witness for C6 at a non-numeric reply and a concrete state. -/
theorem quality_default_score_passes_witness :
    quality_score_of "excellent" = 7 ∧
    route_quality ⟨"", "", [], "", "", "", [], "", 7, 0⟩ = "end" :=
  ⟨(quality_default_score_passes "excellent" (by decide)).1,
   (quality_default_score_passes "excellent" (by decide)).2 _ rfl⟩



/-! ## Session storage claims -/

theorem lookup_eq_none_of_forall {β : Type} (sid : String) (l : List (String × β))
    (h : ∀ p ∈ l, ¬(p.1 = sid)) : l.lookup sid = none := by
  induction l with
  | nil => rfl
  | cons p t ih =>
    obtain ⟨k, v⟩ := p
    have hk : ¬(k = sid) := h (k, v) (List.mem_cons_self ..)
    have hb : (sid == k) = false := beq_eq_false_iff_ne.2 (fun heq => hk (Eq.symm heq))
    simp only [List.lookup, hb]
    exact ih fun q hq => h q (List.mem_cons_of_mem _ hq)

/-- C8: writing a session file and reading it back yields the parsed saved
document, and parsing the saved document preserves the rôles and contents of
the messages, in order. -/
theorem session_roundtrip_order_content (st : Storage) (s : ChatSession) :
    get_session (write_session st s) s.session_id =
      some (parse_session (save_session_doc s)) ∧
    (parse_session (save_session_doc s)).messages.map (fun m => (m.role, m.content)) =
      s.messages.map (fun m => (m.role, m.content)) := by
  constructor
  · rw [get_session, write_session]
    simp [List.lookup]
  · simp [parse_session, save_session_doc, loadMessage, saveMessage, List.map_map,
      Function.comp]

/-- C10: `list_sessions` returns the index items sorted by updated timestamp
in descending order (most recent first), and the sorted list is a
permutation of the items built from the index. -/
theorem list_sessions_sorted_desc (st : Storage) :
    (list_sessions st).Pairwise (fun a b => b.timestamp ≤ a.timestamp) ∧
    (list_sessions st).Perm (rawItems st) := by
  haveI h1 : IsTotal ChatHistoryItem (fun a b => b.timestamp ≤ a.timestamp) :=
    ⟨fun a b => le_total b.timestamp a.timestamp⟩
  haveI h2 : IsTrans ChatHistoryItem (fun a b => b.timestamp ≤ a.timestamp) :=
    ⟨fun a b c hab hbc => le_trans hbc hab⟩
  exact ⟨List.sorted_insertionSort _ _, List.perm_insertionSort _ _⟩

/-- C7: deleting an existing session removes it; afterwards, when no session
remains a fresh "New Chat" session is created and its id returned as the
replacement id, otherwise the replacement id is null — and in both cases at
least one session exists afterwards. -/
theorem delete_session_keeps_one (st : Storage) (sid freshId : String) (now : Timestamp)
    (hex : (st.files.lookup sid).isSome = true) (hfresh : ¬(freshId = sid)) :
    ∃ st2 r, delete_chat_session st sid freshId now = some (st2, r) ∧
      st2.files.lookup sid = none ∧
      (∀ e ∈ st2.index, ¬(e.session_id = sid)) ∧
      st2.index ≠ [] ∧
      (if st.index.filter (fun e => ¬(e.session_id = sid)) = []
       then r = some freshId else r = none) := by
  set st1 : Storage := ⟨st.index.filter (fun e => ¬(e.session_id = sid)),
    st.files.filter (fun p => ¬(p.1 = sid))⟩ with hst1
  have hdel : delete_session st sid = some st1 := by
    rw [delete_session, if_pos hex]
  have hfile1 : ∀ p ∈ st1.files, ¬(p.1 = sid) := by
    intro p hp
    have := (List.mem_filter.1 hp).2
    simpa using this
  have hidx1 : ∀ e ∈ st1.index, ¬(e.session_id = sid) := by
    intro e he
    have := (List.mem_filter.1 he).2
    simpa using this
  have hlen : (list_sessions st1).length = st1.index.length := by
    rw [list_sessions, (List.perm_insertionSort _ _).length_eq]
    simp [rawItems]
  have heq : delete_chat_session st sid freshId now =
      (if (list_sessions st1).length = 0 then
        some ((create_session st1 freshId now "New Chat").1,
          some (create_session st1 freshId now "New Chat").2.session_id)
       else some (st1, none)) := by
    rw [delete_chat_session, hdel]
  by_cases hempty : st.index.filter (fun e => ¬(e.session_id = sid)) = []
  · have hidx0 : st1.index = [] := hempty
    have hlen0 : (list_sessions st1).length = 0 := by
      rw [hlen, hidx0]
      rfl
    refine ⟨(create_session st1 freshId now "New Chat").1, some freshId, ?_, ?_, ?_, ?_, ?_⟩
    · rw [heq, if_pos hlen0]
      rfl
    · rw [create_session]
      refine lookup_eq_none_of_forall _ _ ?_
      intro p hp
      simp only [write_session] at hp
      rcases List.mem_cons.1 hp with h | h
      · rw [h]
        exact hfresh
      · exact hfile1 p ((List.mem_filter.1 h).1)
    · intro e he
      rw [create_session] at he
      simp only [write_session] at he
      simp at he
      rcases he with ⟨_, hne⟩ | rfl
      · exact hne
      · exact hfresh
    · rw [create_session]
      simp [write_session, hidx0]
    · rw [if_pos hempty]
  · have hidxne : st1.index ≠ [] := hempty
    have hlenne : ¬((list_sessions st1).length = 0) := by
      rw [hlen]
      intro h0
      exact hidxne (List.length_eq_zero.1 h0)
    refine ⟨st1, none, ?_, ?_, hidx1, hidxne, ?_⟩
    · rw [heq, if_neg hlenne]
    · exact lookup_eq_none_of_forall _ _ hfile1
    · rw [if_neg hempty]



/-- Witness for C7: deleting the only session of a concrete store yields a
replacement session id. -/
theorem delete_session_keeps_one_witness :
    ∃ st2 r,
      delete_chat_session
        ⟨[⟨"s1", "New Chat", 0, 0, 0⟩],
         [("s1", ⟨"s1", "New Chat", false, [], 0, 0⟩)]⟩ "s1" "s2" 1 = some (st2, r) ∧
      st2.files.lookup "s1" = none ∧
      (∀ e ∈ st2.index, ¬(e.session_id = "s1")) ∧
      st2.index ≠ [] ∧
      (if (Storage.mk [⟨"s1", "New Chat", 0, 0, 0⟩]
            [("s1", ⟨"s1", "New Chat", false, [], 0, 0⟩)]).index.filter
          (fun e => ¬(e.session_id = "s1")) = []
       then r = some "s2" else r = none) :=
  delete_session_keeps_one _ "s1" "s2" 1 (by decide) (by decide)


end DealCrafter
